import Mathlib

/-!
Verification of the item-level access-control-list engine (`AccessListConcept`).

The repository contains two variants of the engine:

* `src/server/concepts/accessList.ts` — the "collapsed" variant: one document per
  protected item, keyed by the document's own `_id`.  Modelled below in
  namespace `AccessList`.
* an unnamed historical variant (`src/unnamed/part_001`) — documents carry a
  separate `item` field naming the protected item, and the file additionally
  defines `canView`, `hasItemAccess` and the bulk operations
  `setToViewerAllItems` / `removeAccessAllItems`.  Modelled below in namespace
  `AccessListV`.

MongoDB `ObjectId`s are modelled as `Nat`.  The source always compares ids via
`toString()`; `ObjectId.toString` is injective, so those comparisons are
modelled as equality on `Nat`.  A document collection is modelled as the list
of its documents in insertion order together with the next fresh id;
`readOne f` is `List.find?` (Mongo returns the first matching document),
`updateOne f u` rewrites the first matching document, and `deleteOne f`
removes the first matching document.
-/

namespace AccessList

/-- `ItemAccessDoc` of `src/server/concepts/accessList.ts`:
`{ owner: ObjectId; editors: ObjectId[]; viewers: ObjectId[] }` plus the
`_id` every `BaseDoc` carries.  (`dateCreated`/`dateUpdated` only influence
listing order, which no claim depends on, and are omitted.) -/
structure ItemAccessDoc where
  _id : Nat
  owner : Nat
  editors : List Nat
  viewers : List Nat
deriving DecidableEq, Repr

/-- The `accessList` collection: documents in insertion order, plus the next
id `createOne` will assign (Mongo generates a fresh `_id` per insert). -/
structure AccessListState where
  docs : List ItemAccessDoc
  nextId : Nat
deriving DecidableEq, Repr

/-- Errors raised by the engine: `NotFoundError` and the `NotAllowedError`
subclasses declared at the bottom of the source files. -/
inductive AccessErr where
  | notFound (id : Nat)
  | itemOwnerNotMatch (user id : Nat)
  | itemViewerNotMatch (user id : Nat)
  | itemEditorNotMatch (user id : Nat)
  | accessRestricted (user id : Nat)
deriving DecidableEq, Repr

/-- `this.accessList.readOne({ _id })`: first document whose `_id` equals the
given id. -/
def readOne (s : AccessListState) (i : Nat) : Option ItemAccessDoc :=
  s.docs.find? (fun d => d._id == i)

/-- `updateOne({ _id }, u)`: rewrite the first document whose `_id` matches. -/
def updateFirstById : List ItemAccessDoc → Nat → (ItemAccessDoc → ItemAccessDoc) → List ItemAccessDoc
  | [], _, _ => []
  | d :: ds, i, f => if d._id == i then f d :: ds else d :: updateFirstById ds i f

/-- `deleteOne({ _id })`: remove the first document whose `_id` matches. -/
def deleteOneById : List ItemAccessDoc → Nat → List ItemAccessDoc
  | [], _ => []
  | d :: ds, i => if d._id == i then ds else d :: deleteOneById ds i

/-- `addItem(owner, editors?, viewers?)` (lines 25-34): default the optional
role lists to `[]`, `createOne` the new document, and return the message
together with `readOne({ _id })` of the fresh id. -/
def addItem (s : AccessListState) (owner : Nat) (editors0 viewers0 : Option (List Nat)) :
    String × Option ItemAccessDoc × AccessListState :=
  let editors := editors0.getD []
  let viewers := viewers0.getD []
  let d : ItemAccessDoc := ⟨s.nextId, owner, editors, viewers⟩
  let s' : AccessListState := ⟨s.docs ++ [d], s.nextId + 1⟩
  ("Item successfully added!", readOne s' s.nextId, s')

/-- `deleteItem(_id)` (lines 36-39): `deleteOne` then the fixed message;
never throws. -/
def deleteItem (s : AccessListState) (i : Nat) : String × AccessListState :=
  ("Item deleted successfully!", ⟨deleteOneById s.docs i, s.nextId⟩)

/-- `isOwner(user, _id)` (lines 103-111).  `item.owner.toString() !== user.toString()`
is owner ≠ user on ids. -/
def isOwner (s : AccessListState) (user i : Nat) : Except AccessErr Unit :=
  match readOne s i with
  | none => .error (.notFound i)
  | some item => if item.owner == user then .ok () else .error (.itemOwnerNotMatch user i)

/-- `isViewer(user, _id)` (lines 113-121).  `viewers.map(toString).includes(user.toString())`
is list membership on ids. -/
def isViewer (s : AccessListState) (user i : Nat) : Except AccessErr Unit :=
  match readOne s i with
  | none => .error (.notFound i)
  | some item =>
    if item.viewers.contains user then .ok () else .error (.itemViewerNotMatch user i)

/-- `isEditor(user, _id)` (lines 123-131). -/
def isEditor (s : AccessListState) (user i : Nat) : Except AccessErr Unit :=
  match readOne s i with
  | none => .error (.notFound i)
  | some item =>
    if item.editors.contains user then .ok () else .error (.itemEditorNotMatch user i)

/-- `setToViewer(_id, user)` (lines 41-56): try `isViewer`; on success return the
"already a viewer" message; on any failure read the document, throw `NotFound`
if absent, else push `user` onto a copy of `viewers` and write it back. -/
def setToViewer (s : AccessListState) (i user : Nat) :
    Except AccessErr (String × AccessListState) :=
  match isViewer s user i with
  | .ok _ => .ok (toString user ++ " is already a viewer of " ++ toString i, s)
  | .error _ =>
    match readOne s i with
    | none => .error (.notFound i)
    | some item =>
      .ok ("Viewers successfully updated!",
        ⟨updateFirstById s.docs i (fun d => { d with viewers := item.viewers ++ [user] }),
         s.nextId⟩)

/-- `setToEditor(_id, user)` (lines 58-73), symmetric to `setToViewer`. -/
def setToEditor (s : AccessListState) (i user : Nat) :
    Except AccessErr (String × AccessListState) :=
  match isEditor s user i with
  | .ok _ => .ok (toString user ++ " is already an editor of " ++ toString i, s)
  | .error _ =>
    match readOne s i with
    | none => .error (.notFound i)
    | some item =>
      .ok ("Editors successfully updated!",
        ⟨updateFirstById s.docs i (fun d => { d with editors := item.editors ++ [user] }),
         s.nextId⟩)

/-- `removeAccess(_id, user)` (lines 75-101): `readOne({ _id, $or: [{viewers: user},
{editors: user}] })` — on an array field Mongo's equality filter means membership.
If nothing matches, return the "already restricted" message.  Otherwise remove
`user` from `viewers` if present there (`findIndex` + `splice(i,1)` = erase at the
first index), else from `editors`; both branches return the literal message
`"Viewers successfully updated!"` (the editors branch reuses the viewers message
in the source, line 99).  The update filter is `{ _id }` alone.  The function
never throws; the dead final fall-through returns `undefined`, modelled as `none`. -/
def removeAccess (s : AccessListState) (i user : Nat) : Option String × AccessListState :=
  match s.docs.find? (fun d => d._id == i && (d.viewers.contains user || d.editors.contains user)) with
  | none => (some (toString user ++ " is already restricted from seeing " ++ toString i), s)
  | some item =>
    match item.viewers.findIdx? (fun v => v == user) with
    | some idx =>
      (some "Viewers successfully updated!",
        ⟨updateFirstById s.docs i (fun d => { d with viewers := item.viewers.eraseIdx idx }),
         s.nextId⟩)
    | none =>
      match item.editors.findIdx? (fun v => v == user) with
      | some idx =>
        (some "Viewers successfully updated!",
          ⟨updateFirstById s.docs i (fun d => { d with editors := item.editors.eraseIdx idx }),
           s.nextId⟩)
      | none => (none, s)

/-- The read phase of `setToViewer`'s mutation branch (lines 46-52): fetch the
document and compute, in memory, the viewer list the call will write
(`item.viewers.slice()` + `push(user)`); `none` when the document is absent. -/
def setToViewerReadPhase (s : AccessListState) (i user : Nat) : Option (List Nat) :=
  match readOne s i with
  | none => none
  | some item => some (item.viewers ++ [user])

/-- The write phase of `setToViewer`'s mutation branch (line 53):
`updateOne({ _id }, { viewers: newViewers })` with the precomputed list. -/
def setToViewerWritePhase (s : AccessListState) (i : Nat) (vs : List Nat) : AccessListState :=
  ⟨updateFirstById s.docs i (fun d => { d with viewers := vs }), s.nextId⟩

/-- The operations of the engine, for stating reachability and frame
properties.  `addItem`'s two optional arguments are the caller-supplied
initial role lists. -/
inductive Op where
  | addItem (owner : Nat) (editors0 viewers0 : Option (List Nat))
  | deleteItem (i : Nat)
  | setToViewer (i user : Nat)
  | setToEditor (i user : Nat)
  | removeAccess (i user : Nat)
deriving DecidableEq, Repr

/-- Resulting collection state of one operation.  A thrown `setToViewer` /
`setToEditor` leaves the store unchanged: in the source the only `throw`
in those functions happens before the single `updateOne`. -/
def applyOp (s : AccessListState) : Op → AccessListState
  | .addItem o e v => (addItem s o e v).2.2
  | .deleteItem i => (deleteItem s i).2
  | .setToViewer i u =>
    match setToViewer s i u with
    | .ok r => r.2
    | .error _ => s
  | .setToEditor i u =>
    match setToEditor s i u with
    | .ok r => r.2
    | .error _ => s
  | .removeAccess i u => (removeAccess s i u).2

/-- Run a sequence of operations from a state. -/
def runOps (s : AccessListState) (ops : List Op) : AccessListState :=
  ops.foldl applyOp s

/-- The registry before any operation: empty collection. -/
def initState : AccessListState := ⟨[], 0⟩

/-- Both role lists of a document are duplicate-free. -/
def dupFreeDoc (d : ItemAccessDoc) : Prop :=
  d.editors.Nodup ∧ d.viewers.Nodup

instance (d : ItemAccessDoc) : Decidable (dupFreeDoc d) := by
  unfold dupFreeDoc; infer_instance

/-- Every document of the collection has duplicate-free role lists. -/
def dupFreeState (s : AccessListState) : Prop :=
  ∀ d ∈ s.docs, dupFreeDoc d

instance (s : AccessListState) : Decidable (dupFreeState s) := by
  unfold dupFreeState; infer_instance

/-- The operation supplies no duplicated caller-provided initial list
(`addItem` is the only operation taking caller-supplied role lists). -/
def goodOp : Op → Prop
  | .addItem _ e v => (e.getD []).Nodup ∧ (v.getD []).Nodup
  | _ => True

instance (op : Op) : Decidable (goodOp op) := by
  cases op <;> (unfold goodOp; infer_instance)

/-- The operation is one of the three role mutations (the operations C8
quantifies over). -/
def isRoleMutation : Op → Prop
  | .setToViewer _ _ => True
  | .setToEditor _ _ => True
  | .removeAccess _ _ => True
  | _ => False

instance (op : Op) : Decidable (isRoleMutation op) := by
  cases op <;> (unfold isRoleMutation; infer_instance)

/-- The `_id → owner` association of the collection: what C8 asserts the
role mutations never change. -/
def idOwnerMap (s : AccessListState) : List (Nat × Nat) :=
  s.docs.map (fun d => (d._id, d.owner))

/-- Well-formedness `createOne` maintains: every stored `_id` is below the
next id Mongo will generate (ids are never reused). -/
def WFIds (s : AccessListState) : Prop :=
  ∀ d ∈ s.docs, d._id < s.nextId

end AccessList

namespace AccessListV

/-- `ItemAccessDoc` of the unnamed variant (`src/unnamed/part_001`):
`{ item: ObjectId; owner: ObjectId; editors: ObjectId[]; viewers: ObjectId[] }`
plus the `BaseDoc` `_id`. -/
structure VDoc where
  _id : Nat
  item : Nat
  owner : Nat
  editors : List Nat
  viewers : List Nat
deriving DecidableEq, Repr

/-- The `accessList` collection of the unnamed variant. -/
structure VState where
  docs : List VDoc
  nextId : Nat
deriving DecidableEq, Repr

/-- Mongo's equality filter `{ field: v }` evaluated on one document of this
collection.  On an array field it means membership.  A filter on a field the
document does not carry (the documents have `_id`, `item`, `owner`, `editors`,
`viewers` and the date fields, nothing else) matches only when the filter
value is `null`; the engine only ever filters with `ObjectId` values, which
are never `null`, so such a filter matches no document.  In particular the
filter key `"itemId"`, used by `isViewer`/`isEditor`/`canView`/`removeAccess`
in this variant, is not a field of `ItemAccessDoc`. -/
def matchesField (d : VDoc) (field : String) (v : Nat) : Bool :=
  match field with
  | "_id" => d._id == v
  | "item" => d.item == v
  | "owner" => d.owner == v
  | "editors" => d.editors.contains v
  | "viewers" => d.viewers.contains v
  | _ => false

/-- `readOne({ field: v })` for a single equality filter. -/
def readOneField (s : VState) (field : String) (v : Nat) : Option VDoc :=
  s.docs.find? (fun d => matchesField d field v)

/-- `updateOne({ field: v }, u)`: rewrite the first matching document (none
when no document matches, as for Mongo's `updateOne`). -/
def updateFirstField : List VDoc → String → Nat → (VDoc → VDoc) → List VDoc
  | [], _, _, _ => []
  | d :: ds, field, v, f =>
    if matchesField d field v then f d :: ds else d :: updateFirstField ds field v f

/-- `getItemsByOwner(owner)` (lines 22-24): `readMany({ owner })`.  The
`dateUpdated` sort only permutes the returned list; every per-item update in
the bulk operations below is keyed by that item's own `_id`, so the final
state does not depend on the order and the insertion order is kept. -/
def getItemsByOwner (s : VState) (owner : Nat) : List VDoc :=
  s.docs.filter (fun d => matchesField d "owner" owner)

/-- `isOwner(user, itemId)` (lines 140-148): note this check queries
`readOne({ item: itemId })` — the correct field name. -/
def isOwner (s : VState) (user itemId : Nat) : Except AccessList.AccessErr Unit :=
  match readOneField s "item" itemId with
  | none => .error (.notFound itemId)
  | some item =>
    if item.owner == user then .ok () else .error (.itemOwnerNotMatch user itemId)

/-- `isViewer(user, itemId)` (lines 150-158): queries `readOne({ itemId })`,
i.e. the shorthand for `{ itemId: itemId }` — an equality filter on the
nonexistent `itemId` field (contrast `isOwner` above). -/
def isViewer (s : VState) (user itemId : Nat) : Except AccessList.AccessErr Unit :=
  match readOneField s "itemId" itemId with
  | none => .error (.notFound itemId)
  | some item =>
    if item.viewers.contains user then .ok ()
    else .error (.itemViewerNotMatch user itemId)

/-- `isEditor(user, itemId)` (lines 160-168): also filters on `{ itemId }`. -/
def isEditor (s : VState) (user itemId : Nat) : Except AccessList.AccessErr Unit :=
  match readOneField s "itemId" itemId with
  | none => .error (.notFound itemId)
  | some item =>
    if item.editors.contains user then .ok ()
    else .error (.itemEditorNotMatch user itemId)

/-- `hasItemAccess(item, user)` (lines 181-188): owner OR viewer OR editor. -/
def hasItemAccess (item : VDoc) (user : Nat) : Bool :=
  (item.owner == user) || item.viewers.contains user || item.editors.contains user

/-- `canView(user, itemId)` (lines 170-179): `readOne({ itemId })` (the
nonexistent field again), `NotFound` when that returns nothing, otherwise
`AccessRestrictedError` unless `hasItemAccess`. -/
def canView (s : VState) (user itemId : Nat) : Except AccessList.AccessErr Unit :=
  match readOneField s "itemId" itemId with
  | none => .error (.notFound itemId)
  | some item =>
    if hasItemAccess item user then .ok ()
    else .error (.accessRestricted user itemId)

/-- `setToViewer(_id, user)` (lines 56-71): same text as the collapsed
variant's; the `catch` branch reads and updates by `{ _id }` (correct field),
but the guarding `isViewer` it tries first is this variant's. -/
def setToViewer (s : VState) (i user : Nat) :
    Except AccessList.AccessErr (String × VState) :=
  match isViewer s user i with
  | .ok _ => .ok (toString user ++ " is already a viewer of " ++ toString i, s)
  | .error _ =>
    match readOneField s "_id" i with
    | none => .error (.notFound i)
    | some item =>
      .ok ("Viewers successfully updated!",
        ⟨updateFirstField s.docs "_id" i (fun d => { d with viewers := item.viewers ++ [user] }),
         s.nextId⟩)

/-- `removeAccess(itemId, user)` (lines 114-138): `readOne({ itemId, $or: ... })`
filters on the nonexistent `itemId` field, so it matches no document and the
function answers "already restricted" leaving the store unchanged.  The dead
`some` branch is still modelled faithfully: it updates with the filter
`{ itemId }`, and its `else` arm calls `splice(editorIndex, 1)` without
checking for `-1` — `splice(-1, 1)` drops the LAST element, modelled by
`dropLast` in the `findIdx? = none` case. -/
def removeAccess (s : VState) (itemId user : Nat) : Option String × VState :=
  match s.docs.find? (fun d =>
      matchesField d "itemId" itemId && (d.viewers.contains user || d.editors.contains user)) with
  | none => (some (toString user ++ " is already restricted from seeing " ++ toString itemId), s)
  | some item =>
    match item.viewers.findIdx? (fun v => v == user) with
    | some idx =>
      (some "Viewers successfully updated!",
        ⟨updateFirstField s.docs "itemId" itemId (fun d => { d with viewers := item.viewers.eraseIdx idx }),
         s.nextId⟩)
    | none =>
      let newEditors :=
        match item.editors.findIdx? (fun v => v == user) with
        | some idx => item.editors.eraseIdx idx
        | none => item.editors.dropLast
      (some "Editors successfully updated!",
        ⟨updateFirstField s.docs "itemId" itemId (fun d => { d with editors := newEditors }),
         s.nextId⟩)

/-- The loop body of `setToViewerAllItems` (lines 46-52): for each snapshot
item, if `user` is not among its snapshot viewers, write that item's viewers
(snapshot plus `user`) through `updateOne({ _id: item._id })`. -/
def setToViewerLoop (user : Nat) : List VDoc → VState → VState
  | [], s => s
  | item :: rest, s =>
    if item.viewers.any (fun v => v == user) then setToViewerLoop user rest s
    else
      setToViewerLoop user rest
        ⟨updateFirstField s.docs "_id" item._id (fun d => { d with viewers := item.viewers ++ [user] }),
         s.nextId⟩

/-- `setToViewerAllItems(owner, user)` (lines 42-54): iterate the owner's
items (a snapshot read) and update each as in `setToViewerLoop`. -/
def setToViewerAllItems (s : VState) (owner user : Nat) : String × VState :=
  ("Access to all items successfully updated!",
   setToViewerLoop user (getItemsByOwner s owner) s)

/-- Every document of the variant collection has duplicate-free role lists. -/
def dupFreeStateV (s : VState) : Prop :=
  ∀ d ∈ s.docs, d.editors.Nodup ∧ d.viewers.Nodup

instance (s : VState) : Decidable (dupFreeStateV s) := by
  unfold dupFreeStateV; infer_instance

end AccessListV

/-- The two phases compose to the mutation branch of `setToViewer`: whenever
the guarding `isViewer` fails and the read phase finds the document,
`setToViewer` is exactly the write phase applied to the read phase's result.
This certifies that `setToViewerReadPhase` / `setToViewerWritePhase` are the
read-modify-write decomposition of `setToViewer` used in the race analysis. -/
theorem setToViewer_eq_read_write_phases
    (s : AccessList.AccessListState) (i u : Nat) (vs : List Nat) (e : AccessList.AccessErr)
    (hv : AccessList.isViewer s u i = .error e)
    (hr : AccessList.setToViewerReadPhase s i u = some vs) :
    AccessList.setToViewer s i u =
      .ok ("Viewers successfully updated!", AccessList.setToViewerWritePhase s i vs) := by
  unfold AccessList.setToViewer AccessList.setToViewerWritePhase
  rw [hv]
  unfold AccessList.setToViewerReadPhase at hr
  cases h : AccessList.readOne s i with
  | none => rw [h] at hr; exact absurd hr (by simp)
  | some item =>
    rw [h] at hr
    simp only [Option.some.injEq] at hr
    simp [hr]

/-- C1: in the unnamed variant, `canView(user, itemId)` looks the record up
with the filter `{ itemId }`, a field the documents do not have, so it raises
`NotFound` even when a record for the item exists and the user is one of its
viewers — the claimed success on the owner/editor/viewer union never
happens.  Here the store holds the record `item 7, owner 2, viewers [3]`,
yet `canView(3, 7)` raises `NotFound`. -/
theorem c1_canView_notFound_despite_viewer :
    (AccessListV.VState.mk [AccessListV.VDoc.mk 0 7 2 [] [3]] 1).docs.any
        (fun d => d.item == 7 && d.viewers.contains 3) = true ∧
    AccessListV.canView (AccessListV.VState.mk [AccessListV.VDoc.mk 0 7 2 [] [3]] 1) 3 7 =
      .error (.notFound 7) :=
  ⟨rfl, rfl⟩

/-- C2: in the unnamed variant, `setToViewer` is not idempotent: its guard
`isViewer` filters on the nonexistent `itemId` field, hence always throws, so
every call takes the append branch.  On the record `_id 10` with viewers
`[5]`, a second `setToViewer(10, 5)` appends a duplicate and returns the
"Viewers successfully updated!" message instead of the "already a viewer"
no-op. -/
theorem c2_setToViewer_appends_duplicate :
    AccessListV.setToViewer (AccessListV.VState.mk [AccessListV.VDoc.mk 10 70 1 [] []] 11) 10 5 =
      .ok ("Viewers successfully updated!",
           AccessListV.VState.mk [AccessListV.VDoc.mk 10 70 1 [] [5]] 11) ∧
    AccessListV.setToViewer (AccessListV.VState.mk [AccessListV.VDoc.mk 10 70 1 [] [5]] 11) 10 5 =
      .ok ("Viewers successfully updated!",
           AccessListV.VState.mk [AccessListV.VDoc.mk 10 70 1 [] [5, 5]] 11) :=
  ⟨rfl, rfl⟩

/-- C3: `setToViewer` is an unguarded read-modify-write; under the
interleaving in which both concurrent calls run their read phase against the
fresh empty-viewers record before either write lands, the second write
clobbers the first: starting from viewers `[]`, the calls for users 4 and 5
compute `[4]` and `[5]` respectively, and the final state holds viewers
`[5]` — user 4's grant is lost, where the claim demands both. -/
theorem c3_concurrent_setToViewer_lost_update :
    AccessList.setToViewerReadPhase (AccessList.AccessListState.mk [AccessList.ItemAccessDoc.mk 0 1 [] []] 1) 0 4 = some [4] ∧
    AccessList.setToViewerReadPhase (AccessList.AccessListState.mk [AccessList.ItemAccessDoc.mk 0 1 [] []] 1) 0 5 = some [5] ∧
    AccessList.setToViewerWritePhase
        (AccessList.setToViewerWritePhase (AccessList.AccessListState.mk [AccessList.ItemAccessDoc.mk 0 1 [] []] 1) 0 [4])
        0 [5] =
      AccessList.AccessListState.mk [AccessList.ItemAccessDoc.mk 0 1 [] [5]] 1 := by
  decide

/-- C4: in the unnamed variant, the strict checks `isViewer`/`isEditor`
filter on the nonexistent `itemId` field and therefore raise `NotFound` even
though a record for the item exists (violating "NotFound iff no record"),
while the sibling `isOwner` in the same file — which filters on the correct
`item` field — behaves as claimed on the same store. -/
theorem c4_isViewer_notFound_despite_record :
    (AccessListV.VState.mk [AccessListV.VDoc.mk 0 8 1 [6] [4]] 1).docs.any
        (fun d => d.item == 8) = true ∧
    AccessListV.isViewer (AccessListV.VState.mk [AccessListV.VDoc.mk 0 8 1 [6] [4]] 1) 4 8 =
      .error (.notFound 8) ∧
    AccessListV.isEditor (AccessListV.VState.mk [AccessListV.VDoc.mk 0 8 1 [6] [4]] 1) 6 8 =
      .error (.notFound 8) ∧
    AccessListV.isOwner (AccessListV.VState.mk [AccessListV.VDoc.mk 0 8 1 [6] [4]] 1) 1 8 =
      .ok () :=
  ⟨rfl, rfl, rfl, rfl⟩

/-- C6 counterexample: take the record `_id 0, owner 1, editors [], viewers [2]`.
User 2 is not an editor, yet `setToEditor` then `removeAccess` does not
restore the pre-grant role sets: `removeAccess` checks `viewers` first,
removes the pre-existing viewer entry and leaves the freshly granted editor
entry in place. -/
theorem c6_counterexample_viewer_left_as_editor :
    AccessList.setToEditor (AccessList.AccessListState.mk [AccessList.ItemAccessDoc.mk 0 1 [] [2]] 1) 0 2 =
      .ok ("Editors successfully updated!",
           AccessList.AccessListState.mk [AccessList.ItemAccessDoc.mk 0 1 [2] [2]] 1) ∧
    AccessList.removeAccess (AccessList.AccessListState.mk [AccessList.ItemAccessDoc.mk 0 1 [2] [2]] 1) 0 2 =
      (some "Viewers successfully updated!",
       AccessList.AccessListState.mk [AccessList.ItemAccessDoc.mk 0 1 [2] []] 1) ∧
    AccessList.AccessListState.mk [AccessList.ItemAccessDoc.mk 0 1 [2] []] 1 ≠
      AccessList.AccessListState.mk [AccessList.ItemAccessDoc.mk 0 1 [] [2]] 1 :=
  ⟨rfl, rfl, by decide⟩

/-- C7 counterexample: `addItem` stores the caller-supplied initial role
lists verbatim, so one operation from the empty registry reaches a state
whose `editors` list holds a duplicate. -/
theorem c7_counterexample_addItem_duplicates :
    AccessList.runOps AccessList.initState [AccessList.Op.addItem 1 (some [2, 2]) none] =
      AccessList.AccessListState.mk [AccessList.ItemAccessDoc.mk 0 1 [2, 2] []] 1 ∧
    ¬ AccessList.dupFreeState (AccessList.AccessListState.mk [AccessList.ItemAccessDoc.mk 0 1 [2, 2] []] 1) := by
  decide

/-- C10: in the unnamed variant — the only one defining `canView` — a user
sitting in both `viewers` and `editors` of an existing record is removed
from neither by `removeAccess` (its lookup filters on the nonexistent
`itemId` field, so it answers "already restricted" and leaves the store
unchanged), and `canView` raises `NotFound` for that user instead of
granting access. -/
theorem c10_removeAccess_noop_and_canView_notFound :
    (AccessListV.VState.mk [AccessListV.VDoc.mk 3 9 1 [2] [2]] 4).docs.any
        (fun d => d.item == 9 && d.viewers.contains 2 && d.editors.contains 2) = true ∧
    AccessListV.removeAccess (AccessListV.VState.mk [AccessListV.VDoc.mk 3 9 1 [2] [2]] 4) 9 2 =
      (some "2 is already restricted from seeing 9",
       AccessListV.VState.mk [AccessListV.VDoc.mk 3 9 1 [2] [2]] 4) ∧
    AccessListV.canView (AccessListV.VState.mk [AccessListV.VDoc.mk 3 9 1 [2] [2]] 4) 2 9 =
      .error (.notFound 9) :=
  ⟨rfl, rfl, rfl⟩




/-- A list obtained by rewriting the first `_id`-match consists of old
documents and, possibly, the image of one old document whose `_id` matched. -/
theorem mem_updateFirstById {x : AccessList.ItemAccessDoc} :
    ∀ {docs : List AccessList.ItemAccessDoc} {i : Nat} {f : AccessList.ItemAccessDoc → AccessList.ItemAccessDoc},
      x ∈ AccessList.updateFirstById docs i f →
      x ∈ docs ∨ ∃ d, d ∈ docs ∧ (d._id == i) = true ∧ x = f d := by
  intro docs
  induction docs with
  | nil => intro i f h; exact absurd h (by simp [AccessList.updateFirstById])
  | cons d ds ih =>
    intro i f h
    unfold AccessList.updateFirstById at h
    by_cases hd : (d._id == i) = true
    · rw [if_pos hd] at h
      rcases List.mem_cons.mp h with h1 | h1
      · exact Or.inr ⟨d, List.mem_cons_self d ds, hd, h1⟩
      · exact Or.inl (List.mem_cons_of_mem d h1)
    · rw [if_neg hd] at h
      rcases List.mem_cons.mp h with h1 | h1
      · exact Or.inl (h1 ▸ List.mem_cons_self d ds)
      · rcases ih h1 with h2 | ⟨d', hd', hid, hx⟩
        · exact Or.inl (List.mem_cons_of_mem d h2)
        · exact Or.inr ⟨d', List.mem_cons_of_mem d hd', hid, hx⟩

/-- Deleting the first `_id`-match only drops a document. -/
theorem mem_deleteOneById {x : AccessList.ItemAccessDoc} :
    ∀ {docs : List AccessList.ItemAccessDoc} {i : Nat},
      x ∈ AccessList.deleteOneById docs i → x ∈ docs := by
  intro docs
  induction docs with
  | nil => intro i h; exact absurd h (by simp [AccessList.deleteOneById])
  | cons d ds ih =>
    intro i h
    unfold AccessList.deleteOneById at h
    by_cases hd : (d._id == i) = true
    · rw [if_pos hd] at h; exact List.mem_cons_of_mem d h
    · rw [if_neg hd] at h
      rcases List.mem_cons.mp h with h1 | h1
      · exact h1 ▸ List.mem_cons_self d ds
      · exact List.mem_cons_of_mem d (ih h1)

/-- C5: right after `addItem` with owner `u` creates its record (whose fresh
id is `nextId`), `isOwner(u, id)` succeeds and `isOwner(v, id)` fails with
the owner-mismatch error for every `v ≠ u`.  The hypothesis is the freshness
of Mongo-generated ids. -/
theorem c5_addItem_isOwner (s : AccessList.AccessListState) (owner : Nat)
    (editors0 viewers0 : Option (List Nat)) (hwf : AccessList.WFIds s) :
    AccessList.isOwner (AccessList.addItem s owner editors0 viewers0).2.2 owner s.nextId = .ok () ∧
    ∀ v, v ≠ owner →
      AccessList.isOwner (AccessList.addItem s owner editors0 viewers0).2.2 v s.nextId =
        .error (.itemOwnerNotMatch v s.nextId) := by
  have hnone : s.docs.find? (fun d => d._id == s.nextId) = none := by
    apply List.find?_eq_none.mpr
    intro x hx
    simpa using Nat.ne_of_lt (hwf x hx)
  have hfind : AccessList.readOne (AccessList.addItem s owner editors0 viewers0).2.2 s.nextId =
      some ⟨s.nextId, owner, editors0.getD [], viewers0.getD []⟩ := by
    simp [AccessList.readOne, AccessList.addItem, List.find?_append, hnone]
  constructor
  · simp [AccessList.isOwner, hfind]
  · intro v hv
    have : (owner == v) = false := by
      simp only [beq_eq_false_iff_ne]
      exact fun e => hv e.symm
    simp [AccessList.isOwner, hfind, this]

/-- C5 witness: on the empty registry, `addItem` with owner 1 yields record
id 0; `isOwner 1 0` succeeds, `isOwner 2 0` fails with the mismatch error. -/
theorem c5_addItem_isOwner_witness :
    AccessList.isOwner (AccessList.addItem AccessList.initState 1 none none).2.2 1 0 = .ok () ∧
    AccessList.isOwner (AccessList.addItem AccessList.initState 1 none none).2.2 2 0 =
      .error (.itemOwnerNotMatch 2 0) := by
  have h := c5_addItem_isOwner AccessList.initState 1 none none
    (by intro d hd; exact absurd hd (by simp [AccessList.initState]))
  exact ⟨h.1, h.2 2 (by decide)⟩

/-- Rewriting the first `_id`-match with a function that keeps `_id` and
`owner` leaves the `_id → owner` association of the collection unchanged. -/
theorem map_idOwner_updateFirstById
    (i : Nat) (f : AccessList.ItemAccessDoc → AccessList.ItemAccessDoc)
    (hf : ∀ d, ((f d)._id, (f d).owner) = (d._id, d.owner)) :
    ∀ (docs : List AccessList.ItemAccessDoc),
      (AccessList.updateFirstById docs i f).map (fun d => (d._id, d.owner)) =
        docs.map (fun d => (d._id, d.owner)) := by
  intro docs
  induction docs with
  | nil => rfl
  | cons d ds ih =>
    unfold AccessList.updateFirstById
    by_cases hd : (d._id == i) = true
    · rw [if_pos hd]; simp [hf d]
    · rw [if_neg hd]; simp [ih]

/-- One role mutation (`setToViewer`, `setToEditor` or `removeAccess`) keeps
the `_id → owner` association of every record. -/
theorem idOwnerMap_applyOp_roleMutation (s : AccessList.AccessListState)
    (op : AccessList.Op) (h : AccessList.isRoleMutation op) :
    AccessList.idOwnerMap (AccessList.applyOp s op) = AccessList.idOwnerMap s := by
  cases op with
  | addItem o e v => exact absurd h (by simp [AccessList.isRoleMutation])
  | deleteItem i => exact absurd h (by simp [AccessList.isRoleMutation])
  | setToViewer i u =>
    simp only [AccessList.applyOp, AccessList.setToViewer]
    cases hv : AccessList.isViewer s u i with
    | ok _ => rfl
    | error e =>
      cases hr : AccessList.readOne s i with
      | none => rfl
      | some item =>
        simp only [AccessList.idOwnerMap]
        exact map_idOwner_updateFirstById i
          (fun d => { d with viewers := item.viewers ++ [u] }) (fun d => rfl) s.docs
  | setToEditor i u =>
    simp only [AccessList.applyOp, AccessList.setToEditor]
    cases hv : AccessList.isEditor s u i with
    | ok _ => rfl
    | error e =>
      cases hr : AccessList.readOne s i with
      | none => rfl
      | some item =>
        simp only [AccessList.idOwnerMap]
        exact map_idOwner_updateFirstById i
          (fun d => { d with editors := item.editors ++ [u] }) (fun d => rfl) s.docs
  | removeAccess i u =>
    simp only [AccessList.applyOp, AccessList.removeAccess]
    cases hf : s.docs.find? (fun d => d._id == i && (d.viewers.contains u || d.editors.contains u)) with
    | none => rfl
    | some item =>
      dsimp only
      cases hvi : item.viewers.findIdx? (fun v => v == u) with
      | some idx =>
        simp only [AccessList.idOwnerMap]
        exact map_idOwner_updateFirstById i
          (fun d => { d with viewers := item.viewers.eraseIdx idx }) (fun d => rfl) s.docs
      | none =>
        dsimp only
        cases hei : item.editors.findIdx? (fun v => v == u) with
        | some idx =>
          simp only [AccessList.idOwnerMap]
          exact map_idOwner_updateFirstById i
            (fun d => { d with editors := item.editors.eraseIdx idx }) (fun d => rfl) s.docs
        | none => rfl

/-- C8: the owner field is set at creation and never changed afterwards —
running any sequence of `setToViewer`, `setToEditor` and `removeAccess`
operations leaves every record's `_id → owner` association exactly as it
was; those operations touch only the `viewers`/`editors` lists. -/
theorem c8_owner_immutable_under_role_mutations
    (s : AccessList.AccessListState) (ops : List AccessList.Op)
    (h : ∀ op ∈ ops, AccessList.isRoleMutation op) :
    AccessList.idOwnerMap (AccessList.runOps s ops) = AccessList.idOwnerMap s := by
  induction ops generalizing s with
  | nil => rfl
  | cons op rest ih =>
    have h1 : AccessList.isRoleMutation op := h op (List.mem_cons_self op rest)
    have h2 : ∀ o ∈ rest, AccessList.isRoleMutation o :=
      fun o ho => h o (List.mem_cons_of_mem op ho)
    calc AccessList.idOwnerMap (AccessList.runOps (AccessList.applyOp s op) rest)
        = AccessList.idOwnerMap (AccessList.applyOp s op) := ih _ h2
      _ = AccessList.idOwnerMap s := idOwnerMap_applyOp_roleMutation s op h1

/-- C8 witness: a grant, a revoke and a no-op revoke on a concrete record
leave its owner association untouched. -/
theorem c8_owner_immutable_witness :
    AccessList.idOwnerMap
        (AccessList.runOps (AccessList.AccessListState.mk [AccessList.ItemAccessDoc.mk 0 1 [] []] 1)
          [AccessList.Op.setToViewer 0 5, AccessList.Op.setToEditor 0 6,
           AccessList.Op.removeAccess 0 5, AccessList.Op.removeAccess 0 9]) =
      AccessList.idOwnerMap (AccessList.AccessListState.mk [AccessList.ItemAccessDoc.mk 0 1 [] []] 1) :=
  c8_owner_immutable_under_role_mutations _ _ (by decide)

/-- `deleteOne` with an `_id` nothing matches leaves the collection as is. -/
theorem deleteOneById_eq_of_find?_none (i : Nat) :
    ∀ (docs : List AccessList.ItemAccessDoc),
      docs.find? (fun d => d._id == i) = none → AccessList.deleteOneById docs i = docs := by
  intro docs
  induction docs with
  | nil => intro _; rfl
  | cons d ds ih =>
    intro h
    rw [List.find?_cons] at h
    by_cases hd : (d._id == i) = true
    · rw [hd] at h; exact absurd h (by simp)
    · rw [Bool.of_not_eq_true hd] at h
      unfold AccessList.deleteOneById
      rw [if_neg hd, ih h]

/-- With pairwise distinct `_id`s, after deleting the `_id`-match no
document with that `_id` remains. -/
theorem find?_deleteOneById_of_nodup (i : Nat) :
    ∀ (docs : List AccessList.ItemAccessDoc),
      (docs.map (fun d => d._id)).Nodup →
      (AccessList.deleteOneById docs i).find? (fun d => d._id == i) = none := by
  intro docs
  induction docs with
  | nil => intro _; rfl
  | cons d ds ih =>
    intro hnd
    rw [List.map_cons, List.nodup_cons] at hnd
    unfold AccessList.deleteOneById
    by_cases hd : (d._id == i) = true
    · rw [if_pos hd]
      apply List.find?_eq_none.mpr
      intro x hx
      intro hxi
      have hxd : x._id = d._id := by
        have h1 : x._id = i := by simpa using hxi
        have h2 : d._id = i := by simpa using hd
        rw [h1, h2]
      exact hnd.1 (hxd ▸ List.mem_map_of_mem (fun d => d._id) hx)
    · rw [if_neg hd, List.find?_cons, Bool.of_not_eq_true hd]
      exact ih hnd.2

/-- C9: absent-target no-ops.  (1) `deleteItem` on an id with no record does
not raise: it returns its success message and leaves the store unchanged.
(2) `removeAccess` for a user contained in neither `viewers` nor `editors`
of the addressed record (which is exactly when its `$or` lookup matches
nothing) returns the success-shaped "already restricted" message and touches
nothing.  (3) After `deleteItem(i)` — with the Mongo guarantee that stored
ids are pairwise distinct — `isOwner` on `i` raises `NotFound`. -/
theorem c9_absent_target_noops :
    (∀ (s : AccessList.AccessListState) (i : Nat),
      AccessList.readOne s i = none →
      AccessList.deleteItem s i = ("Item deleted successfully!", s)) ∧
    (∀ (s : AccessList.AccessListState) (i u : Nat),
      s.docs.find? (fun d => d._id == i && (d.viewers.contains u || d.editors.contains u)) = none →
      AccessList.removeAccess s i u =
        (some (toString u ++ " is already restricted from seeing " ++ toString i), s)) ∧
    (∀ (s : AccessList.AccessListState) (i u : Nat),
      (s.docs.map (fun d => d._id)).Nodup →
      AccessList.isOwner (AccessList.deleteItem s i).2 u i = .error (.notFound i)) := by
  refine ⟨?_, ?_, ?_⟩
  · intro s i h
    unfold AccessList.deleteItem
    rw [deleteOneById_eq_of_find?_none i s.docs h]
  · intro s i u h
    unfold AccessList.removeAccess
    rw [h]
  · intro s i u h
    unfold AccessList.isOwner AccessList.readOne AccessList.deleteItem
    rw [find?_deleteOneById_of_nodup i s.docs h]

/-- C9 witness: on a one-record store — `deleteItem 5` (absent id) is a
silent no-op, `removeAccess` for user 9 (in neither role list) answers
"already restricted", and after `deleteItem 0` the owner check raises
`NotFound`. -/
theorem c9_absent_target_noops_witness :
    AccessList.deleteItem (AccessList.AccessListState.mk [AccessList.ItemAccessDoc.mk 0 1 [2] [3]] 1) 5 =
      ("Item deleted successfully!", AccessList.AccessListState.mk [AccessList.ItemAccessDoc.mk 0 1 [2] [3]] 1) ∧
    AccessList.removeAccess (AccessList.AccessListState.mk [AccessList.ItemAccessDoc.mk 0 1 [2] [3]] 1) 0 9 =
      (some "9 is already restricted from seeing 0",
       AccessList.AccessListState.mk [AccessList.ItemAccessDoc.mk 0 1 [2] [3]] 1) ∧
    AccessList.isOwner
        (AccessList.deleteItem (AccessList.AccessListState.mk [AccessList.ItemAccessDoc.mk 0 1 [2] [3]] 1) 0).2 1 0 =
      .error (.notFound 0) := by
  refine ⟨c9_absent_target_noops.1 _ 5 rfl, ?_, c9_absent_target_noops.2.2 _ 0 1 (by decide)⟩
  have h := c9_absent_target_noops.2.1
    (AccessList.AccessListState.mk [AccessList.ItemAccessDoc.mk 0 1 [2] [3]] 1) 0 9 rfl
  exact h

/-- Each operation of the collapsed engine, given duplicate-free
caller-supplied lists, preserves duplicate-freedom of every record's role
lists. -/
theorem dupFree_applyOp (s : AccessList.AccessListState) (op : AccessList.Op)
    (hs : AccessList.dupFreeState s) (hop : AccessList.goodOp op) :
    AccessList.dupFreeState (AccessList.applyOp s op) := by
  cases op with
  | addItem o e v =>
    intro d hd
    simp only [AccessList.applyOp, AccessList.addItem, List.mem_append] at hd
    rcases hd with hd | hd
    · exact hs d hd
    · have : d = ⟨s.nextId, o, e.getD [], v.getD []⟩ := by simpa using hd
      subst this
      exact ⟨hop.1, hop.2⟩
  | deleteItem i =>
    intro d hd
    exact hs d (mem_deleteOneById hd)
  | setToViewer i u =>
    simp only [AccessList.applyOp, AccessList.setToViewer]
    cases hv : AccessList.isViewer s u i with
    | ok _ => exact hs
    | error e =>
      cases hr : AccessList.readOne s i with
      | none => exact hs
      | some item =>
        have hr' : s.docs.find? (fun d => d._id == i) = some item := hr
        have hmem : item ∈ s.docs := List.mem_of_find?_eq_some hr'
        have hcon : item.viewers.contains u = false := by
          by_contra hc
          have hc' : u ∈ item.viewers := by
            simpa using eq_true_of_ne_false hc
          unfold AccessList.isViewer at hv
          rw [hr] at hv
          simp [hc'] at hv
        have hnm : u ∉ item.viewers := by simpa using hcon
        intro x hx
        rcases mem_updateFirstById hx with hold | ⟨d, hd, _, hxf⟩
        · exact hs x hold
        · subst hxf
          refine ⟨(hs d hd).1, ?_⟩
          simp [List.nodup_append, (hs item hmem).2, hnm]
  | setToEditor i u =>
    simp only [AccessList.applyOp, AccessList.setToEditor]
    cases hv : AccessList.isEditor s u i with
    | ok _ => exact hs
    | error e =>
      cases hr : AccessList.readOne s i with
      | none => exact hs
      | some item =>
        have hr' : s.docs.find? (fun d => d._id == i) = some item := hr
        have hmem : item ∈ s.docs := List.mem_of_find?_eq_some hr'
        have hcon : item.editors.contains u = false := by
          by_contra hc
          have hc' : u ∈ item.editors := by
            simpa using eq_true_of_ne_false hc
          unfold AccessList.isEditor at hv
          rw [hr] at hv
          simp [hc'] at hv
        have hnm : u ∉ item.editors := by simpa using hcon
        intro x hx
        rcases mem_updateFirstById hx with hold | ⟨d, hd, _, hxf⟩
        · exact hs x hold
        · subst hxf
          refine ⟨?_, (hs d hd).2⟩
          simp [List.nodup_append, (hs item hmem).1, hnm]
  | removeAccess i u =>
    simp only [AccessList.applyOp, AccessList.removeAccess]
    cases hf : s.docs.find? (fun d => d._id == i && (d.viewers.contains u || d.editors.contains u)) with
    | none => exact hs
    | some item =>
      have hmem : item ∈ s.docs := List.mem_of_find?_eq_some hf
      dsimp only
      cases hvi : item.viewers.findIdx? (fun v => v == u) with
      | some idx =>
        intro x hx
        rcases mem_updateFirstById hx with hold | ⟨d, hd, _, hxf⟩
        · exact hs x hold
        · subst hxf
          exact ⟨(hs d hd).1, ((hs item hmem).2).sublist (List.eraseIdx_sublist item.viewers idx)⟩
      | none =>
        dsimp only
        cases hei : item.editors.findIdx? (fun v => v == u) with
        | some idx =>
          intro x hx
          rcases mem_updateFirstById hx with hold | ⟨d, hd, _, hxf⟩
          · exact hs x hold
          · subst hxf
            exact ⟨((hs item hmem).1).sublist (List.eraseIdx_sublist item.editors idx), (hs d hd).2⟩
        | none => exact hs

/-- Sequence version of `dupFree_applyOp`. -/
theorem dupFree_runOps (ops : List AccessList.Op) :
    ∀ (s : AccessList.AccessListState), AccessList.dupFreeState s →
      (∀ op ∈ ops, AccessList.goodOp op) →
      AccessList.dupFreeState (AccessList.runOps s ops) := by
  induction ops with
  | nil => intro s hs _; exact hs
  | cons op rest ih =>
    intro s hs h
    exact ih _ (dupFree_applyOp s op hs (h op (List.mem_cons_self op rest)))
      (fun o ho => h o (List.mem_cons_of_mem op ho))

/-- A list obtained by rewriting the first filter match (unnamed variant)
consists of old documents and, possibly, the image of one old document. -/
theorem mem_updateFirstField {x : AccessListV.VDoc} :
    ∀ {docs : List AccessListV.VDoc} {field : String} {v : Nat} {f : AccessListV.VDoc → AccessListV.VDoc},
      x ∈ AccessListV.updateFirstField docs field v f → x ∈ docs ∨ ∃ d, d ∈ docs ∧ x = f d := by
  intro docs
  induction docs with
  | nil => intro field v f h; exact absurd h (by simp [AccessListV.updateFirstField])
  | cons d ds ih =>
    intro field v f h
    unfold AccessListV.updateFirstField at h
    by_cases hd : AccessListV.matchesField d field v = true
    · rw [if_pos hd] at h
      rcases List.mem_cons.mp h with h1 | h1
      · exact Or.inr ⟨d, List.mem_cons_self d ds, h1⟩
      · exact Or.inl (List.mem_cons_of_mem d h1)
    · rw [if_neg hd] at h
      rcases List.mem_cons.mp h with h1 | h1
      · exact Or.inl (h1 ▸ List.mem_cons_self d ds)
      · rcases ih h1 with h2 | ⟨d', hd', hx⟩
        · exact Or.inl (List.mem_cons_of_mem d h2)
        · exact Or.inr ⟨d', List.mem_cons_of_mem d hd', hx⟩

/-- The loop of the bulk `setToViewerAllItems` preserves duplicate-freedom:
each step appends `user` to a snapshot viewer list only when `user` is not
already in it. -/
theorem dupFree_setToViewerLoop (user : Nat) :
    ∀ (items : List AccessListV.VDoc) (s : AccessListV.VState),
      (∀ it ∈ items, it.viewers.Nodup) →
      AccessListV.dupFreeStateV s →
      AccessListV.dupFreeStateV (AccessListV.setToViewerLoop user items s) := by
  intro items
  induction items with
  | nil => intro s _ hs; exact hs
  | cons it rest ih =>
    intro s hits hs
    have hrest : ∀ x ∈ rest, x.viewers.Nodup :=
      fun x hx => hits x (List.mem_cons_of_mem it hx)
    unfold AccessListV.setToViewerLoop
    by_cases h : it.viewers.any (fun v => v == user) = true
    · rw [if_pos h]; exact ih s hrest hs
    · rw [if_neg h]
      apply ih _ hrest
      have hnm : user ∉ it.viewers := by
        intro hm
        exact h (List.any_eq_true.mpr ⟨user, hm, by simp⟩)
      intro x hx
      rcases mem_updateFirstField hx with hold | ⟨d, hd, hxf⟩
      · exact hs x hold
      · subst hxf
        refine ⟨(hs d hd).1, ?_⟩
        simp [List.nodup_append, hits it (List.mem_cons_self it rest), hnm]

/-- C7 (as amended): provided every `addItem` is called with duplicate-free
initial role lists, every state the collapsed engine's operations reach from
the empty registry has duplicate-free `editors` and `viewers` in every
record; and the bulk `setToViewerAllItems` of the unnamed variant likewise
preserves duplicate-freedom.  (Without the proviso the claim fails:
`addItem` stores caller-supplied duplicates verbatim, see the
counterexample.) -/
theorem c7_amended_dupFree_reachable :
    (∀ ops : List AccessList.Op, (∀ op ∈ ops, AccessList.goodOp op) →
      AccessList.dupFreeState (AccessList.runOps AccessList.initState ops)) ∧
    (∀ (sv : AccessListV.VState) (owner user : Nat),
      AccessListV.dupFreeStateV sv →
      AccessListV.dupFreeStateV (AccessListV.setToViewerAllItems sv owner user).2) := by
  constructor
  · intro ops h
    exact dupFree_runOps ops AccessList.initState (by intro d hd; exact absurd hd (by simp [AccessList.initState])) h
  · intro sv owner user hsv
    apply dupFree_setToViewerLoop user (AccessListV.getItemsByOwner sv owner) sv
    · intro it hit
      exact (hsv it (List.mem_of_mem_filter hit)).2
    · exact hsv

/-- C7 witness: a grant-bearing operation sequence with duplicate-free
inputs reaches a duplicate-free state, and a concrete bulk grant preserves
duplicate-freedom. -/
theorem c7_amended_dupFree_witness :
    AccessList.dupFreeState
      (AccessList.runOps AccessList.initState
        [AccessList.Op.addItem 1 (some [2]) (some [3]), AccessList.Op.setToViewer 0 4,
         AccessList.Op.setToViewer 0 4, AccessList.Op.setToEditor 0 3,
         AccessList.Op.removeAccess 0 3]) ∧
    AccessListV.dupFreeStateV
      (AccessListV.setToViewerAllItems
        (AccessListV.VState.mk [AccessListV.VDoc.mk 0 7 1 [] [], AccessListV.VDoc.mk 1 8 1 [] [5]] 2) 1 5).2 :=
  ⟨c7_amended_dupFree_reachable.1 _ (by decide), c7_amended_dupFree_reachable.2 _ 1 5 (by decide)⟩

/-- `findIndex` misses a user who is not in the list. -/
theorem findIdx?_beq_eq_none_of_not_mem (u : Nat) :
    ∀ (l : List Nat), u ∉ l → l.findIdx? (fun v => v == u) = none := by
  intro l
  induction l with
  | nil => intro _; rfl
  | cons x xs ih =>
    intro h
    have hx : (x == u) = false := by
      simp only [beq_eq_false_iff_ne]
      exact fun e => h (e ▸ List.mem_cons_self x xs)
    rw [List.findIdx?_cons, hx]
    simp only [if_neg (by simp : ¬ (false = true))]
    rw [List.findIdx?_succ, ih (fun hm => h (List.mem_cons_of_mem x hm))]
    rfl

/-- `findIndex` locates a freshly appended user at the old length. -/
theorem findIdx?_beq_append_self (u : Nat) :
    ∀ (l : List Nat), u ∉ l → (l ++ [u]).findIdx? (fun v => v == u) = some l.length := by
  intro l
  induction l with
  | nil => intro _; simp [List.findIdx?_cons]
  | cons x xs ih =>
    intro h
    have hx : (x == u) = false := by
      simp only [beq_eq_false_iff_ne]
      exact fun e => h (e ▸ List.mem_cons_self x xs)
    simp only [List.cons_append, List.findIdx?_cons, hx, if_neg (by simp : ¬ (false = true))]
    rw [List.findIdx?_succ, ih (fun hm => h (List.mem_cons_of_mem x hm))]
    simp

/-- `splice` at the old length undoes the append. -/
theorem eraseIdx_append_length (u : Nat) :
    ∀ (l : List Nat), (l ++ [u]).eraseIdx l.length = l := by
  intro l
  induction l with
  | nil => rfl
  | cons x xs ih => simp [List.eraseIdx, ih]

/-- After rewriting the first `_id`-match with an `_id`-preserving function,
a lookup whose filter conjoins the same `_id` test with any condition the
rewritten document satisfies finds exactly the rewritten document. -/
theorem find?_updateFirstById_same_id (i : Nat) (q : AccessList.ItemAccessDoc → Bool)
    (g : AccessList.ItemAccessDoc → AccessList.ItemAccessDoc)
    (hg : ∀ x, (g x)._id = x._id) :
    ∀ (docs : List AccessList.ItemAccessDoc) (d : AccessList.ItemAccessDoc),
      docs.find? (fun x => x._id == i) = some d → q (g d) = true →
      (AccessList.updateFirstById docs i g).find? (fun x => x._id == i && q x) = some (g d) := by
  intro docs
  induction docs with
  | nil => intro d hfind _; exact absurd hfind (by simp)
  | cons x xs ih =>
    intro d hfind hq
    by_cases hx : (x._id == i) = true
    · rw [List.find?_cons, hx] at hfind
      have hxd : x = d := by simpa using hfind
      subst hxd
      unfold AccessList.updateFirstById
      rw [if_pos hx]
      have hcond : ((g x)._id == i && q (g x)) = true := by
        rw [hg x, hx, hq]
        rfl
      rw [List.find?_cons, hcond]
    · rw [List.find?_cons, Bool.of_not_eq_true hx] at hfind
      unfold AccessList.updateFirstById
      rw [if_neg hx]
      have hcond : (x._id == i && q x) = false := by
        rw [Bool.of_not_eq_true hx]
        rfl
      rw [List.find?_cons, hcond]
      exact ih d hfind hq

/-- Rewriting the first `_id`-match twice, the second rewrite inverting the
first on the matched document, restores the collection. -/
theorem updateFirstById_restore (i : Nat)
    (g g2 : AccessList.ItemAccessDoc → AccessList.ItemAccessDoc)
    (hg : ∀ x, (g x)._id = x._id) :
    ∀ (docs : List AccessList.ItemAccessDoc) (d : AccessList.ItemAccessDoc),
      docs.find? (fun x => x._id == i) = some d → g2 (g d) = d →
      AccessList.updateFirstById (AccessList.updateFirstById docs i g) i g2 = docs := by
  intro docs
  induction docs with
  | nil => intro d hfind _; exact absurd hfind (by simp)
  | cons x xs ih =>
    intro d hfind hinv
    by_cases hx : (x._id == i) = true
    · rw [List.find?_cons, hx] at hfind
      have hxd : x = d := by simpa using hfind
      subst hxd
      have hgx : ((g x)._id == i) = true := by rw [hg x]; exact hx
      simp [AccessList.updateFirstById, hx, hgx, hinv]
    · rw [List.find?_cons, Bool.of_not_eq_true hx] at hfind
      simp [AccessList.updateFirstById, hx, ih d hfind hinv]

/-- C6 (as amended): for an existing record whose first `_id`-match is `d`
and a user `u` in NEITHER role list, `setToEditor` then `removeAccess`
restores the record store exactly: the fresh editor entry is the one
`removeAccess` erases, so no residual entry remains.  (As originally stated
— `u` only assumed not to be an editor — the claim fails when `u` is a
viewer, see the counterexample: `removeAccess` then strips the viewer entry
and keeps the editor grant.)  `removeAccess` reports via the (source-literal)
viewers message. -/
theorem c6_amended_grant_revoke_roundtrip (s : AccessList.AccessListState) (i u : Nat)
    (d : AccessList.ItemAccessDoc)
    (hfind : s.docs.find? (fun x => x._id == i) = some d)
    (hv : u ∉ d.viewers) (he : u ∉ d.editors) :
    AccessList.setToEditor s i u =
      .ok ("Editors successfully updated!",
        ⟨AccessList.updateFirstById s.docs i (fun x => { x with editors := d.editors ++ [u] }),
         s.nextId⟩) ∧
    AccessList.removeAccess
        ⟨AccessList.updateFirstById s.docs i (fun x => { x with editors := d.editors ++ [u] }),
         s.nextId⟩ i u =
      (some "Viewers successfully updated!", s) := by
  have hro : AccessList.readOne s i = some d := hfind
  have hise : AccessList.isEditor s u i = .error (.itemEditorNotMatch u i) := by
    unfold AccessList.isEditor
    rw [hro]
    simp [he]
  constructor
  · unfold AccessList.setToEditor
    rw [hise, hro]
  · have hg : ∀ x : AccessList.ItemAccessDoc,
        ((fun y : AccessList.ItemAccessDoc => { y with editors := d.editors ++ [u] }) x)._id = x._id :=
      fun x => rfl
    have hq : (d.viewers.contains u || (d.editors ++ [u]).contains u) = true := by
      simp
    have hfind1 := find?_updateFirstById_same_id i
      (fun x => x.viewers.contains u || x.editors.contains u)
      (fun x => { x with editors := d.editors ++ [u] }) hg s.docs d hfind hq
    unfold AccessList.removeAccess
    rw [hfind1]
    dsimp only
    rw [findIdx?_beq_eq_none_of_not_mem u d.viewers hv]
    dsimp only
    rw [findIdx?_beq_append_self u d.editors he]
    dsimp only
    rw [eraseIdx_append_length u d.editors]
    rw [updateFirstById_restore i (fun x => { x with editors := d.editors ++ [u] })
      (fun x => { x with editors := d.editors }) hg s.docs d hfind rfl]

/-- C6 witness: on the record `_id 0, owner 1`, with empty role lists,
granting editor to user 2 and then revoking restores the original store. -/
theorem c6_amended_grant_revoke_witness :
    AccessList.setToEditor (AccessList.AccessListState.mk [AccessList.ItemAccessDoc.mk 0 1 [] []] 1) 0 2 =
      .ok ("Editors successfully updated!",
           AccessList.AccessListState.mk [AccessList.ItemAccessDoc.mk 0 1 [2] []] 1) ∧
    AccessList.removeAccess (AccessList.AccessListState.mk [AccessList.ItemAccessDoc.mk 0 1 [2] []] 1) 0 2 =
      (some "Viewers successfully updated!",
       AccessList.AccessListState.mk [AccessList.ItemAccessDoc.mk 0 1 [] []] 1) :=
  c6_amended_grant_revoke_roundtrip
    (AccessList.AccessListState.mk [AccessList.ItemAccessDoc.mk 0 1 [] []] 1) 0 2
    (AccessList.ItemAccessDoc.mk 0 1 [] []) rfl (by simp) (by simp)
